import Mathlib

/-! Verification of the RatePerDaySystem core against its specification.

The definitions below are a shallow embedding of the TypeScript source:
  * scalar cell values and the JavaScript string coercions used by the
    ingestion pipeline (`Cell`, `jsString`, `jsTruthy`);
  * the scalar parsers `parseNumber` and `parseDate`
    (src/services/api.ts, utils/excelProcessor.ts);
  * the ingestion pipeline `processRawData` and its caller
    `handleFileUpload`;
  * the comparison engine `processYear` / `calcVariance`
    (the useComparisonData hook);
  * the dataset registry `loadYear` of App.tsx as a transition system.

Monetary amounts and durations are modelled as rationals; JavaScript
numbers on the values reached by these programs behave identically for
the small concrete inputs checked here.  The generic date-string
fallback `new Date(str)` of the host is implementation defined and is
modelled as an explicit function parameter `fb`; the only fact assumed
about it where needed is the ECMA-guaranteed `new Date("") = Invalid`.
-/

attribute [local semireducible] Rat.mul Rat.inv Rat.add Rat.sub Rat.ofScientific

namespace RPD

/-! Section: JavaScript string primitives (character-list based models) -/

/-- Model of JavaScript `String.prototype.trim` (ASCII whitespace). -/
def jsTrim (s : String) : String :=
  String.mk ((((s.toList.dropWhile Char.isWhitespace).reverse).dropWhile
      Char.isWhitespace).reverse)

/-- Model of JavaScript `toLowerCase` restricted to ASCII letters, which is
the alphabet used by the column candidates and filter keys. -/
def jsToLower (s : String) : String :=
  String.mk (s.toList.map Char.toLower)

/-- Normalisation `x.toLowerCase().trim()` used throughout the source for
station and group keys. -/
def normKey (s : String) : String := jsTrim (jsToLower s)

/-- Remove every occurrence of a character, the model of the global
regex replace with the empty string used by `parseNumber`. -/
def removeAll (c : Char) (s : String) : String :=
  String.mk (s.toList.filter (fun x => x ≠ c))

/-- Replace only the first occurrence of a character, the model of the
non-global `str.replace(',', '.')`. -/
def replaceFirstChar (c r : Char) : List Char → List Char
  | [] => []
  | x :: xs => if x = c then r :: xs else x :: replaceFirstChar c r xs

/-- Model of JavaScript `str.split(sep)` for a single-character separator. -/
def splitChar (c : Char) (l : List Char) : List (List Char) :=
  l.foldr
    (fun x acc =>
      if x = c then [] :: acc
      else
        match acc with
        | a :: rest => (x :: a) :: rest
        | [] => [[x]])
    [[]]

/-- Infix containment of strings, the model of `String.prototype.includes`. -/
def strContainsSub (s pat : String) : Bool :=
  decide (pat.toList <:+: s.toList)

def digitVal (c : Char) : Nat := c.toNat - '0'.toNat

def digitsToNat (cs : List Char) : Nat :=
  cs.foldl (fun a c => 10 * a + digitVal c) 0

/-! Section: Dates

JavaScript `Date` values produced by `new Date(y, m, d)` with a four
digit year are always valid and carry a proleptic-Gregorian calendar
date; they are embedded as a civil date with a 0-based month exactly as
exposed by `getFullYear` / `getMonth` / `getDate`.  The arithmetic of
`newDateYMD` below reproduces the rollover normalisation that the
`Date(year, monthIndex, day)` constructor performs. -/

structure JSDate where
  year : Int
  month0 : Fin 12
  day : Int
deriving Repr, DecidableEq

/-- Day count of a civil date (proleptic Gregorian), for month `m ∈ [1,12]`. -/
def daysFromCivil (y m d : Int) : Int :=
  let y2 := if m ≤ 2 then y - 1 else y
  let era := Int.fdiv y2 400
  let yoe := y2 - era * 400
  let mp := Int.emod (m + 9) 12
  let doy := Int.fdiv (153 * mp + 2) 5 + d - 1
  let doe := yoe * 365 + Int.fdiv yoe 4 - Int.fdiv yoe 100 + doy
  era * 146097 + doe - 719468

/-- Civil date (year, month in `[1,12]`, day) of a day count. -/
def civilFromDays (z0 : Int) : Int × Int × Int :=
  let z := z0 + 719468
  let era := Int.fdiv z 146097
  let doe := z - era * 146097
  let yoe :=
    Int.fdiv (doe - Int.fdiv doe 1460 + Int.fdiv doe 36524 - Int.fdiv doe 146096) 365
  let y := yoe + era * 400
  let doy := doe - (365 * yoe + Int.fdiv yoe 4 - Int.fdiv yoe 100)
  let mp := Int.fdiv (5 * doy + 2) 153
  let d := doy - Int.fdiv (153 * mp + 2) 5 + 1
  let m := mp + (if mp < 10 then 3 else -9)
  (if m ≤ 2 then y + 1 else y, m, d)

/-- Model of the JavaScript constructor `new Date(y, monthIndex, day)`:
out-of-range month indices and days roll over into adjacent months and
years.  For the four digit years accepted by the explicit date pattern
the result is always a valid date.  The month returned by
`civilFromDays` always lies in `[1,12]`; the `% 12` coercion below only
packages that fact into the `Fin 12` field. -/
def newDateYMD (y mi d : Int) : JSDate :=
  let yAdj := y + Int.fdiv mi 12
  let m1 := Int.emod mi 12 + 1
  let c := civilFromDays (daysFromCivil yAdj m1 d)
  ⟨c.1, ⟨(c.2.1 - 1).toNat % 12, Nat.mod_lt _ (by decide)⟩, c.2.2⟩

/-! Section: Cells

A spreadsheet cell as delivered by `sheet_to_json` with `raw: true`:
a string, a number, a (possibly invalid) `Date`, or an absent value.
`jsString` for a number cell stands in for the decimal rendering of
JavaScript; no verified claim depends on stringifying a non-string
cell.  `String(new Date(NaN))` really is `"Invalid Date"`. -/

inductive Cell where
  | str (s : String)
  | num (q : ℚ)
  | date (d : JSDate)
  | invalidDate
  | empty
deriving Repr, DecidableEq

/-- JavaScript truthiness of a cell value. -/
def jsTruthy : Cell → Bool
  | .str s => if s = "" then false else true
  | .num q => if q = 0 then false else true
  | .date _ => true
  | .invalidDate => true
  | .empty => false

def qToString (q : ℚ) : String :=
  if q.den = 1 then toString q.num else toString q

/-- JavaScript `String(v)` coercion of a cell. -/
def jsString : Cell → String
  | .str s => s
  | .num q => qToString q
  | .date d => "Date " ++ toString d.year
  | .invalidDate => "Invalid Date"
  | .empty => ""

/-! Section: Scalar parser: parseNumber (identical in api.ts and excelProcessor.ts) -/

/-- Prefix parse of an unsigned decimal literal, the relevant fragment of
`parseFloat` (letters have been stripped beforehand, so exponents and
Infinity cannot occur). -/
def parseFloatUnsigned (cs : List Char) : Option ℚ :=
  let intPart := cs.takeWhile Char.isDigit
  let rest := cs.dropWhile Char.isDigit
  match rest with
  | '.' :: rest2 =>
    let frac := rest2.takeWhile Char.isDigit
    if intPart = [] ∧ frac = [] then none
    else some ((digitsToNat intPart : ℚ) + (digitsToNat frac : ℚ) / (10 ^ frac.length))
  | _ => if intPart = [] then none else some (digitsToNat intPart : ℚ)

/-- Model of JavaScript `parseFloat` on the strings reachable in
`parseNumber`: optional sign then an unsigned decimal prefix; `none`
models `NaN`. -/
def jsParseFloat (s : String) : Option ℚ :=
  let cs := s.toList.dropWhile Char.isWhitespace
  match cs with
  | '-' :: rest => (parseFloatUnsigned rest).map (fun q => -q)
  | '+' :: rest => parseFloatUnsigned rest
  | _ => parseFloatUnsigned cs

/-- The character class `[€$£a-zA-Z\s]` removed by `parseNumber`. -/
def isStrippedChar (c : Char) : Bool :=
  c = '€' || c = '$' || c = '£' ||
  ('a' ≤ c && c ≤ 'z') || ('A' ≤ c && c ≤ 'Z') || c.isWhitespace

def stripCurrencyLetters (s : String) : String :=
  String.mk (s.toList.filter (fun c => !isStrippedChar c))

/-- Embedding of `parseNumber` from src/services/api.ts (the copy in
utils/excelProcessor.ts is line-for-line the same logic). -/
def parseNumber (v : Cell) : ℚ :=
  match v with
  | .num q => q
  | _ =>
    if !jsTruthy v then 0
    else
      let str0 := jsTrim (jsString v)
      if str0 = "" then 0
      else
        let cs0 := str0.toList
        let isNeg := cs0.head? = some '(' ∧ cs0.getLast? = some ')'
        let str1 := if isNeg then String.mk ((cs0.drop 1).dropLast) else str0
        let str2 := stripCurrencyLetters str1
        let str3 :=
          if str2.toList.contains ',' then
            String.mk (replaceFirstChar ',' '.' (removeAll '.' str2).toList)
          else if str2.toList.contains '.' then
            let parts := splitChar '.' str2.toList
            if parts.length > 2 then removeAll '.' str2
            else if parts.length = 2 ∧ (parts.getD 1 []).length = 3 then
              removeAll '.' str2
            else str2
          else str2
        match jsParseFloat str3 with
        | none => 0
        | some q => if isNeg then -q else q

/-! Section: Scalar parser: parseDate -/

def isSepChar (c : Char) : Bool := c = '/' || c = '-' || c = '.'

/-- Consume one or two digits followed by a separator, with the same
greedy-then-backtrack behaviour as the regex fragment
`(\d{1,2})[\/\-\.]`. -/
def takeDM (cs : List Char) : Option (Nat × List Char) :=
  match cs with
  | [] => none
  | a :: rest =>
    if a.isDigit then
      match rest with
      | [] => none
      | b :: rest2 =>
        if b.isDigit then
          match rest2 with
          | [] => none
          | s :: rest3 =>
            if isSepChar s then some (10 * digitVal a + digitVal b, rest3) else none
        else if isSepChar b then some (digitVal a, rest2) else none
    else none

/-- Consume exactly four digits (anything may follow), the regex
fragment `(\d{4})` without an end anchor. -/
def takeYear4 (cs : List Char) : Option Nat :=
  match cs with
  | a :: b :: c :: d :: _ =>
    if a.isDigit && b.isDigit && c.isDigit && d.isDigit then
      some (1000 * digitVal a + 100 * digitVal b + 10 * digitVal c + digitVal d)
    else none
  | _ => none

/-- Prefix match of `^(\d{1,2})[\/\-\.](\d{1,2})[\/\-\.](\d{4})`,
returning (day, month, year). -/
def dmyMatch (s : String) : Option (Nat × Nat × Nat) :=
  match takeDM s.toList with
  | none => none
  | some (d, r1) =>
    match takeDM r1 with
    | none => none
    | some (m, r2) =>
      match takeYear4 r2 with
      | none => none
      | some y => some (d, m, y)

/-- Embedding of `parseDate`.  The generic fallback `new Date(str)` is
implementation defined and passed in as `fb`; `fb str = none` models an
Invalid Date result. -/
def parseDate (fb : String → Option JSDate) : Cell → Option JSDate
  | .date d => some d
  | .invalidDate => none
  | c =>
    if !jsTruthy c then none
    else
      let str := jsTrim (jsString c)
      match dmyMatch str with
      | some (d, m, y) => some (newDateYMD (y : Int) ((m : Int) - 1) (d : Int))
      | none => fb str

/-! Section: Canonical record model (types.ts) and ingestion (processRawData) -/

structure RentalRecord where
  id : Nat
  station : String
  stationKey : String
  group : String
  groupKey : String
  date : JSDate
  monthKey : String
  displayDate : String
  day : Int
  days : ℚ
  charge : ℚ
  year : Int
deriving Repr, DecidableEq

structure ProcessedData where
  records : List RentalRecord
  stations : List String
  groups : List String
  months : List String
  totalRecords : Nat
  year : Int
deriving Repr, DecidableEq

/-- A raw spreadsheet row as produced by `sheet_to_json`: column name to
cell value, in column order. -/
abbrev Row := List (String × Cell)

/-- Access `row[key]`; an absent key is the falsy `undefined`. -/
def getCell (row : Row) (k : String) : Cell :=
  (row.lookup k).getD Cell.empty

/-- A header key matches a candidate when its normalised form equals or
contains the candidate, as in `findColumnKey`. -/
def keyMatches (cand k : String) : Bool :=
  (normKey k == cand) || strContainsSub (normKey k) cand

/-- Embedding of `findColumnKey`: first candidate in candidate order,
first header key in column order. -/
def findColumnKey (row : Row) (cands : List String) : Option String :=
  cands.findSome? (fun cand => (row.map Prod.fst).find? (fun k => keyMatches cand k))

def stationCands : List String := ["station", "check-out station", "checkout station"]
def dateCands : List String := ["check-out date", "checkout date", "date"]
def daysCands : List String := ["days", "duration"]
def chargeCands : List String := ["rental charge", "amount", "charge", "price"]
def groupCands : List String := ["charged group", "car group", "group", "category"]

/-- Zero-padding of the 1-based month number, `padStart(2, '0')`. -/
def pad2 (n : Nat) : String :=
  if n < 10 then "0" ++ toString n else toString n

def monthShortName : Fin 12 → String := fun i =>
  [ "Jan", "Feb", "Mar", "Apr", "May", "Jun",
    "Jul", "Aug", "Sep", "Oct", "Nov", "Dec" ].getD i.val ("")

/-- Insertion-order deduplication, the model of collecting into a
JavaScript `Set`. -/
def uniq (l : List String) : List String :=
  l.foldl (fun acc s => if s ∈ acc then acc else acc ++ [s]) []

def insertSorted (s : String) : List String → List String
  | [] => [s]
  | x :: xs => if s ≤ x then s :: x :: xs else x :: insertSorted s xs

/-- Lexicographic sort, the model of `Array.from(set).sort()`. -/
def sortStrings (l : List String) : List String :=
  l.foldr insertSorted []

/-- One iteration of the `data.forEach((row, index) => ...)` body of
`processRawData` (src/services/api.ts): the accumulator is the record
list built so far together with the `dataYear` heuristic value.  The
catch-all arm models the guard
`if (!stationKey || !dateKey || !daysKey || !chargeKey) return;` that
skips every row when a required column is unresolved. -/
def processRow (fb : String → Option JSDate)
    (sk dk dyk ck gk : Option String)
    (st : List RentalRecord × Int) (ir : Nat × Row) :
    List RentalRecord × Int :=
  let idx := ir.1
  let row := ir.2
  match sk, dk, dyk, ck with
    | some sKey, some dKey, some dyKey, some cKey =>
      let stationCell := getCell row sKey
      let station := jsTrim (jsString (if jsTruthy stationCell then stationCell else .str ("")))
      if station = "" then st
      else
        match parseDate fb (getCell row dKey) with
        | none => st
        | some date =>
          let days := parseNumber (getCell row dyKey)
          let charge := parseNumber (getCell row cKey)
          if days ≤ 0 then st
          else
            let group :=
              match gk with
              | some gKey =>
                jsTrim (jsString (if jsTruthy (getCell row gKey) then getCell row gKey
                                  else .str ("Unknown")))
              | none => "Unknown"
            let year := date.year
            let dataYear2 := if idx = 0 then year else st.2
            let monthKey := toString year ++ "-" ++ pad2 (date.month0.val + 1)
            let displayDate := monthShortName date.month0 ++ " " ++ toString year
            (st.1 ++ [{ id := idx, station := station, stationKey := normKey station,
                        group := group, groupKey := normKey group, date := date,
                        monthKey := monthKey, displayDate := displayDate,
                        day := date.day, days := days, charge := charge, year := year }],
             dataYear2)
    | _, _, _, _ => st

def emptyPD : ProcessedData := ⟨[], [], [], [], 0, 0⟩

/-- Acceptance of a single row, stated independently of the fold: the
parsed date when the row survives the blank-station, unparseable-date
and non-positive-duration checks under resolved columns, `none` when it
is skipped. -/
def rowAccepted (fb : String → Option JSDate)
    (sk dk dyk ck : Option String) (row : Row) : Option JSDate :=
  match sk, dk, dyk, ck with
  | some sKey, some dKey, some dyKey, some _ =>
    if jsTrim (jsString (if jsTruthy (getCell row sKey) then getCell row sKey
        else .str (""))) = "" then none
    else
      match parseDate fb (getCell row dKey) with
      | none => none
      | some date =>
        if parseNumber (getCell row dyKey) ≤ 0 then none else some date
  | _, _, _, _ => none

/-- The always-invalid generic date fallback, used for concrete runs. -/
def fbNone : String → Option JSDate := fun _ => none

/-- Embedding of `processRawData` (src/services/api.ts).  Column keys are
resolved against the first data row; each row is then either skipped or
turned into a normalised record; the sorted unique station, group and
month lists, the record count and the heuristic year are assembled at
the end. -/
def processRawData (fb : String → Option JSDate) (data : List Row) : ProcessedData :=
  match data with
  | [] => emptyPD
  | r0 :: _ =>
    let sk := findColumnKey r0 stationCands
    let dk := findColumnKey r0 dateCands
    let dyk := findColumnKey r0 daysCands
    let ck := findColumnKey r0 chargeCands
    let gk := findColumnKey r0 groupCands
    let res := data.enum.foldl (processRow fb sk dk dyk ck gk) ([], 0)
    { records := res.1,
      stations := sortStrings (uniq (res.1.map (·.station))),
      groups := sortStrings (uniq (res.1.map (·.group))),
      months := sortStrings (uniq (res.1.map (·.monthKey))),
      totalRecords := res.1.length,
      year := res.2 }

/-- The worker wrapper around `processRawData`: the body never throws on
a missing column, so the posted message is always a SUCCESS carrying the
produced dataset. -/
def workerParse (fb : String → Option JSDate) (data : List Row) :
    Except String ProcessedData :=
  .ok (processRawData fb data)

inductive UploadOutcome where
  | success (d : ProcessedData)
  | error (msg : String)
deriving Repr, DecidableEq

/-- Embedding of `handleFileUpload` (App component of the local-upload
variant): a worker failure is reported as a parse error, a dataset with
zero accepted records as the single "no valid records" error. -/
def handleFileUpload (res : Except String ProcessedData) : UploadOutcome :=
  match res with
  | .error _ => .error ("Failed to parse the Excel file. Please ensure it matches the expected format.")
  | .ok d =>
    if d.totalRecords = 0 then .error ("No valid records found in the uploaded file.")
    else .success d

/-! Section: Concrete tables used for counterexamples and witnesses -/

/-- A table whose header resolves no required column. -/
def badTbl : List Row := [[("foo", Cell.str ("x"))]]

/-- A table whose first raw row is rejected (blank station) and whose
second row is accepted with calendar year 2024. -/
def yearTbl : List Row :=
  [ [("Station", Cell.str (" ")), ("Date", Cell.str ("05/03/2024")),
     ("Days", Cell.num 2), ("Charge", Cell.num 100)],
    [("Station", Cell.str ("Athens")), ("Date", Cell.str ("05/03/2024")),
     ("Days", Cell.num 2), ("Charge", Cell.num 100)] ]

/-- A well-formed one-row table. -/
def gtbl : List Row :=
  [ [("Station", Cell.str ("Athens")), ("Date", Cell.str ("05/03/2024")),
     ("Days", Cell.num 2), ("Charge", Cell.num 100)] ]

def defaultRec : RentalRecord :=
  ⟨0, "", "", "", "", ⟨0, (0 : Fin 12), 0⟩, "", "", 0, 0, 0, 0⟩

def sampleRec : RentalRecord := (processRawData fbNone gtbl).records.getD 0 defaultRec

/-! Section: Comparison engine: calcVariance (useComparisonData hook) -/

/-- Embedding of `calcVariance`; `none` is the explicit undefined
marker (`null` in the source, never `NaN` nor `Infinity`). -/
def calcVariance (p c : ℚ) (pHasData cHasData : Bool) : Option ℚ :=
  if !cHasData then none
  else if c = 0 then
    (if pHasData ∧ p = 0 then some 0 else none)
  else if !pHasData then none
  else some ((p - c) / c)

/-! Section: Comparison engine: processYear (useComparisonData hook) -/

structure MetricSet where
  revenue : ℚ
  days : ℚ
  count : Nat
  rate : ℚ
  hasData : Bool
deriving Repr, DecidableEq

def initMetric : MetricSet := ⟨0, 0, 0, 0, false⟩

inductive DateRange where
  | all
  | r1to10
  | r11to20
  | r21End
deriving Repr, DecidableEq

/-- The filter selections as normalised at the top of `processYear`:
`null` for the All station, otherwise the lowercased-trimmed key. -/
def mkStationTarget (selStation : String) : Option String :=
  if selStation = "All" then none else some (normKey selStation)

def mkGroupTarget (selGroups : List String) : Option (List String) :=
  if "All" ∈ selGroups then none else some (selGroups.map normKey)

/-- The early return `if (targetStationKey && r.stationKey !== targetStationKey)`,
with JavaScript string truthiness (an empty target string is falsy). -/
def stationRejects (tsk : Option String) (k : String) : Bool :=
  match tsk with
  | none => false
  | some t => if t = "" then false else if k = t then false else true

/-- The early return `if (targetGroupKeys && !targetGroupKeys.has(r.groupKey))`
(a Set object is always truthy, even when empty). -/
def groupRejects (tgk : Option (List String)) (k : String) : Bool :=
  match tgk with
  | none => false
  | some ks => if k ∈ ks then false else true

/-- The three date-range early returns of `processYear`. -/
def rangeRejects (dr : DateRange) (day : Int) : Bool :=
  match dr with
  | .all => false
  | .r1to10 => if day < 1 ∨ day > 10 then true else false
  | .r11to20 => if day < 11 ∨ day > 20 then true else false
  | .r21End => if day < 21 then true else false

/-- The accumulation step of `processYear` on the month map. -/
def addRecord (m : MetricSet) (r : RentalRecord) : MetricSet :=
  { revenue := m.revenue + r.charge, days := m.days + r.days,
    count := m.count + 1, rate := m.rate, hasData := true }

def accum (tsk : Option String) (tgk : Option (List String)) (dr : DateRange)
    (ms : Fin 12 → MetricSet) (r : RentalRecord) : Fin 12 → MetricSet :=
  if stationRejects tsk r.stationKey then ms
  else if groupRejects tgk r.groupKey then ms
  else if rangeRejects dr r.day then ms
  else fun i => if i = r.date.month0 then addRecord (ms i) r else ms i

/-- The final rate pass: `rate = revenue / days` where `days > 0`. -/
def applyRates (ms : Fin 12 → MetricSet) : Fin 12 → MetricSet := fun i =>
  if (ms i).days > 0 then { ms i with rate := (ms i).revenue / (ms i).days }
  else ms i

/-- Embedding of `processYear` from the useComparisonData hook: twelve
month slots (indices 0-11), a fold over the records with the three
filter early-returns, then the rate pass. -/
def processYear (selStation : String) (selGroups : List String) (dr : DateRange)
    (data : Option ProcessedData) : Fin 12 → MetricSet :=
  match data with
  | none => fun _ => initMetric
  | some d =>
    applyRates
      (d.records.foldl (accum (mkStationTarget selStation) (mkGroupTarget selGroups) dr)
        (fun _ => initMetric))

/-- A record passes all three code-side early returns and lands in
month slot `i`. -/
def hitB (tsk : Option String) (tgk : Option (List String)) (dr : DateRange)
    (i : Fin 12) (r : RentalRecord) : Bool :=
  !stationRejects tsk r.stationKey && !groupRejects tgk r.groupKey &&
    !rangeRejects dr r.day && decide (r.date.month0 = i)

/-! Section: Specification side of claim C2, written from the words of the
spec: a record contributes to its calendar month exactly when it passes
the station filter (exact stationKey match), the group filter
(membership of groupKey in the selected key set) and the day-of-month
range filter; contributing records add charge, days and one to count
and set hasData; rate is revenue over days when days are positive. -/

def specMatches (selStation : String) (selGroups : List String) (dr : DateRange)
    (r : RentalRecord) : Bool :=
  (decide (selStation = "All") || decide (r.stationKey = normKey selStation)) &&
  (decide ("All" ∈ selGroups) || decide (r.groupKey ∈ selGroups.map normKey)) &&
  (match dr with
   | .all => true
   | .r1to10 => decide (1 ≤ r.day ∧ r.day ≤ 10)
   | .r11to20 => decide (11 ≤ r.day ∧ r.day ≤ 20)
   | .r21End => decide (21 ≤ r.day))

def monthRecords (selStation : String) (selGroups : List String) (dr : DateRange)
    (d : ProcessedData) (i : Fin 12) : List RentalRecord :=
  d.records.filter (fun r => specMatches selStation selGroups dr r && decide (r.date.month0 = i))

def processYearSpec (selStation : String) (selGroups : List String) (dr : DateRange)
    (d : ProcessedData) (i : Fin 12) : MetricSet :=
  let l := monthRecords selStation selGroups dr d i
  let rev := (l.map (fun r => r.charge)).sum
  let dys := (l.map (fun r => r.days)).sum
  ⟨rev, dys, l.length, if dys > 0 then rev / dys else 0, !l.isEmpty⟩

/-- A two-record dataset used as the C2 witness input. -/
def samplePD : ProcessedData :=
  { records :=
      [ { id := 0, station := "Athens", stationKey := "athens", group := "A",
          groupKey := "a", date := ⟨2024, (0 : Fin 12), 5⟩, monthKey := "2024-01",
          displayDate := "Jan 2024", day := 5, days := 2, charge := 100, year := 2024 },
        { id := 1, station := "Thessaloniki", stationKey := "thessaloniki", group := "B",
          groupKey := "b", date := ⟨2024, (0 : Fin 12), 15⟩, monthKey := "2024-01",
          displayDate := "Jan 2024", day := 15, days := 3, charge := 60, year := 2024 } ],
    stations := ["Athens", "Thessaloniki"], groups := ["A", "B"],
    months := ["2024-01"], totalRecords := 2, year := 2024 }

/-! Section: Dataset registry (loadYear of App.tsx) as a transition system

`loadYear` runs on the single-threaded JavaScript event loop.  The
cache check, the in-flight check and the registration of a fresh
in-flight promise execute in one synchronous section (there is no await
between them), and the completion handler (registry write on success,
nothing on failure, then the `finally` block clearing the in-flight
marker) executes in another; the two sections are therefore modelled as
two atomic transitions.  `pending` and `fetchesStarted` are ghost
counters of the outstanding and the cumulative remote fetches per year,
present only so that the claims can be stated; promises are named by
the operation counter `nextOp`, and joining the in-flight promise of a
year means observing the single resolution of that operation. -/

structure RegState where
  registry : Int → Option ProcessedData
  inflight : Int → Option Nat
  nextOp : Nat
  pending : Int → Nat
  fetchesStarted : Int → Nat

inductive LoadOutcome where
  | cachedHit (d : ProcessedData)
  | joined (op : Nat)
  | started (op : Nat)
deriving Repr, DecidableEq

/-- The synchronous section of `loadYear(year)`: return the cached
dataset with no network access, join the fetch already in flight, or
start and register a fresh fetch. -/
def loadYearCall (s : RegState) (y : Int) : RegState × LoadOutcome :=
  match s.registry y with
  | some d => (s, .cachedHit d)
  | none =>
    match s.inflight y with
    | some op => (s, .joined op)
    | none =>
      ({ registry := s.registry,
         inflight := fun z => if z = y then some s.nextOp else s.inflight z,
         nextOp := s.nextOp + 1,
         pending := fun z => if z = y then s.pending z + 1 else s.pending z,
         fetchesStarted := fun z => if z = y then s.fetchesStarted z + 1
           else s.fetchesStarted z },
       .started s.nextOp)

/-- The completion handler of the fetch for `y`: on success the dataset
is written to the registry slot of `y`, on failure nothing is written;
in both cases the in-flight marker of `y` is cleared. -/
def fetchComplete (s : RegState) (y : Int) (res : Option ProcessedData) : RegState :=
  { registry := fun z =>
      if z = y then (match res with | some d => some d | none => s.registry z)
      else s.registry z,
    inflight := fun z => if z = y then none else s.inflight z,
    nextOp := s.nextOp,
    pending := fun z => if z = y then s.pending z - 1 else s.pending z,
    fetchesStarted := s.fetchesStarted }

def regInit : RegState := ⟨fun _ => none, fun _ => none, 0, fun _ => 0, fun _ => 0⟩

/-- Atomic transitions of the registry: a `loadYear` call, or the
completion (success or failure) of the fetch in flight for a year. -/
inductive RegStep : RegState → RegState → Prop
  | call (s : RegState) (y : Int) : RegStep s (loadYearCall s y).1
  | complete (s : RegState) (y : Int) (res : Option ProcessedData)
      (h : (s.inflight y).isSome) : RegStep s (fetchComplete s y res)

def RegReachable (s : RegState) : Prop := Relation.ReflTransGen RegStep regInit s

/-- Registry invariant: the pending counter agrees with the in-flight
map, and a cached year has no fetch in flight. -/
def RegInv (s : RegState) : Prop :=
  ∀ y, (s.pending y = if (s.inflight y).isSome then 1 else 0) ∧
    ((s.registry y).isSome → s.inflight y = none)

/-- State after one `loadYear 2024` call on the empty registry. -/
def regS1 : RegState := (loadYearCall regInit 2024).1

/-- State after that fetch resolves successfully. -/
def regS2 : RegState := fetchComplete regS1 2024 (some emptyPD)

end RPD

namespace RPD

/-- Claim C1: for every metric pair, `calcVariance` returns the explicit
undefined marker when the comparison side has no data; `0` when the
comparison value is `0`, the primary side has data and the primary value
is also `0`; undefined when the comparison value is `0` otherwise;
undefined when the comparison has data and is nonzero but the primary
side lacks data; and the signed fraction `(p - c) / c` in every
remaining case; in particular `calcVariance 12 10 true true = 0.2`. -/
theorem calcVariance_cases (p c : ℚ) (pH cH : Bool) :
    (cH = false → calcVariance p c pH cH = none) ∧
    (cH = true → c = 0 → pH = true → p = 0 → calcVariance p c pH cH = some 0) ∧
    (cH = true → c = 0 → ¬(pH = true ∧ p = 0) → calcVariance p c pH cH = none) ∧
    (cH = true → c ≠ 0 → pH = false → calcVariance p c pH cH = none) ∧
    (cH = true → c ≠ 0 → pH = true → calcVariance p c pH cH = some ((p - c) / c)) ∧
    calcVariance 12 10 true true = some (1/5) := by
  refine ⟨?_, ?_, ?_, ?_, ?_, by decide⟩
  · intro h; subst h; simp [calcVariance]
  · intro h hc hp hp0; subst h; subst hc; subst hp; subst hp0
    simp [calcVariance]
  · intro h hc hne; subst h; subst hc
    simp [calcVariance, hne]
  · intro h hc hp; subst h; subst hp; simp [calcVariance, hc]
  · intro h hc hp; subst h; subst hp; simp [calcVariance, hc]

/-- Witness for C1 at concrete inputs. -/
theorem calcVariance_cases_witness :
    calcVariance 0 0 true true = some 0 ∧
    calcVariance 5 0 true true = none ∧
    calcVariance 7 3 false false = none ∧
    calcVariance 4 10 false true = none ∧
    calcVariance 12 10 true true = some ((12 - 10) / 10) := by
  refine ⟨(calcVariance_cases 0 0 true true).2.1 rfl rfl rfl rfl,
    (calcVariance_cases 5 0 true true).2.2.1 rfl rfl (by simp),
    (calcVariance_cases 7 3 false false).1 rfl,
    (calcVariance_cases 4 10 false true).2.2.2.1 rfl (by norm_num) rfl,
    (calcVariance_cases 12 10 true true).2.2.2.2.1 rfl (by norm_num) rfl⟩

/-- Claim C7: `parseNumber` is total by construction (unparseable text
yields `0`, never an exception), satisfies the six concrete equations of
the specification, and returns native numeric inputs unchanged. -/
theorem parseNumber_spec :
    parseNumber (.str ("1.234,56")) = 1234.56 ∧
    parseNumber (.str ("54.11")) = 54.11 ∧
    parseNumber (.str ("1.200")) = 1200 ∧
    parseNumber (.str ("(42)")) = -42 ∧
    parseNumber (.str ("")) = 0 ∧
    parseNumber (.str ("abc")) = 0 ∧
    (∀ q : ℚ, parseNumber (.num q) = q) := by
  refine ⟨by decide, by decide, by decide, by decide, by decide, by decide, ?_⟩
  intro q; rfl

/-- Witness for C7 at a concrete native numeric input. -/
theorem parseNumber_spec_witness : parseNumber (.num (7/2)) = 7/2 :=
  parseNumber_spec.2.2.2.2.2.2 (7/2)

lemma processRow_missing (fb : String → Option JSDate)
    {sk dk dyk ck : Option String} (gk : Option String)
    (h : sk = none ∨ dk = none ∨ dyk = none ∨ ck = none)
    (st : List RentalRecord × Int) (ir : Nat × Row) :
    processRow fb sk dk dyk ck gk st ir = st := by
  cases sk <;> cases dk <;> cases dyk <;> cases ck <;> first | rfl | simp at h

lemma foldl_processRow_missing (fb : String → Option JSDate)
    {sk dk dyk ck : Option String} (gk : Option String)
    (h : sk = none ∨ dk = none ∨ dyk = none ∨ ck = none) :
    ∀ (l : List (Nat × Row)) (st : List RentalRecord × Int),
      l.foldl (processRow fb sk dk dyk ck gk) st = st := by
  intro l
  induction l with
  | nil => intro st; rfl
  | cons x xs ih =>
    intro st
    rw [List.foldl_cons, processRow_missing fb gk h, ih]

lemma processRow_snd_ne_zero (fb : String → Option JSDate)
    (sk dk dyk ck gk : Option String) (st : List RentalRecord × Int)
    (idx : Nat) (row : Row) (h : idx ≠ 0) :
    (processRow fb sk dk dyk ck gk st (idx, row)).2 = st.2 := by
  cases sk with
  | none => cases dk <;> cases dyk <;> cases ck <;> rfl
  | some sKey =>
    cases dk with
    | none => cases dyk <;> cases ck <;> rfl
    | some dKey =>
      cases dyk with
      | none => cases ck <;> rfl
      | some dyKey =>
        cases ck with
        | none => rfl
        | some cKey =>
          dsimp only [processRow]
          by_cases hs : jsTrim (jsString (if jsTruthy (getCell row sKey) then getCell row sKey
              else .str (""))) = ""
          · simp [hs]
          · simp only [hs, if_false, ite_false]
            cases hd : parseDate fb (getCell row dKey) with
            | none => rfl
            | some date =>
              by_cases hdy : parseNumber (getCell row dyKey) ≤ 0
              · simp [hdy]
              · simp [hdy, h]

lemma foldl_enumFrom_snd (fb : String → Option JSDate)
    (sk dk dyk ck gk : Option String) :
    ∀ (l : List Row) (n : Nat) (st : List RentalRecord × Int), n ≠ 0 →
      (List.foldl (processRow fb sk dk dyk ck gk) st (l.enumFrom n)).2 = st.2 := by
  intro l
  induction l with
  | nil => intro n st _; rfl
  | cons r rs ih =>
    intro n st h
    have he : (r :: rs).enumFrom n = (n, r) :: rs.enumFrom (n + 1) := rfl
    rw [he, List.foldl_cons, ih (n + 1) _ (Nat.succ_ne_zero n),
      processRow_snd_ne_zero fb sk dk dyk ck gk st n r h]

lemma processRow_zero_year (fb : String → Option JSDate)
    (sk dk dyk ck gk : Option String) (row : Row) :
    (processRow fb sk dk dyk ck gk ([], 0) (0, row)).2 =
      match rowAccepted fb sk dk dyk ck row with
      | some d => d.year
      | none => 0 := by
  cases sk with
  | none => cases dk <;> cases dyk <;> cases ck <;> rfl
  | some sKey =>
    cases dk with
    | none => cases dyk <;> cases ck <;> rfl
    | some dKey =>
      cases dyk with
      | none => cases ck <;> rfl
      | some dyKey =>
        cases ck with
        | none => rfl
        | some cKey =>
          dsimp only [processRow, rowAccepted]
          by_cases hs : jsTrim (jsString (if jsTruthy (getCell row sKey) then getCell row sKey
              else .str (""))) = ""
          · simp [hs]
          · simp only [hs, if_false, ite_false]
            cases hd : parseDate fb (getCell row dKey) with
            | none => rfl
            | some date =>
              by_cases hdy : parseNumber (getCell row dyKey) ≤ 0
              · simp [hdy]
              · simp [hdy]

lemma processRow_mem (fb : String → Option JSDate)
    (sk dk dyk ck gk : Option String) (st : List RentalRecord × Int)
    (ir : Nat × Row) :
    ∀ r ∈ (processRow fb sk dk dyk ck gk st ir).1,
      r ∈ st.1 ∨ (r.station ≠ "" ∧ 0 < r.days ∧ ∃ c, parseDate fb c = some r.date) := by
  intro r hr
  obtain ⟨idx, row⟩ := ir
  cases sk with
  | none => cases dk <;> cases dyk <;> cases ck <;> exact Or.inl hr
  | some sKey =>
    cases dk with
    | none => cases dyk <;> cases ck <;> exact Or.inl hr
    | some dKey =>
      cases dyk with
      | none => cases ck <;> exact Or.inl hr
      | some dyKey =>
        cases ck with
        | none => exact Or.inl hr
        | some cKey =>
          dsimp only [processRow] at hr
          by_cases hs : jsTrim (jsString (if jsTruthy (getCell row sKey) then getCell row sKey
              else .str (""))) = ""
          · rw [if_pos hs] at hr; exact Or.inl hr
          · rw [if_neg hs] at hr
            cases hd : parseDate fb (getCell row dKey) with
            | none => rw [hd] at hr; exact Or.inl hr
            | some date =>
              simp only [hd] at hr
              by_cases hdy : parseNumber (getCell row dyKey) ≤ 0
              · rw [if_pos hdy] at hr; exact Or.inl hr
              · rw [if_neg hdy] at hr
                rcases List.mem_append.1 hr with hmem | hmem
                · exact Or.inl hmem
                · rcases List.mem_singleton.1 hmem with rfl
                  exact Or.inr ⟨hs, lt_of_not_le hdy, ⟨getCell row dKey, hd⟩⟩

lemma records_invariant_fold (fb : String → Option JSDate)
    (sk dk dyk ck gk : Option String) :
    ∀ (l : List (Nat × Row)) (st : List RentalRecord × Int),
      (∀ r ∈ st.1, r.station ≠ "" ∧ 0 < r.days ∧ ∃ c, parseDate fb c = some r.date) →
      ∀ r ∈ (l.foldl (processRow fb sk dk dyk ck gk) st).1,
        r.station ≠ "" ∧ 0 < r.days ∧ ∃ c, parseDate fb c = some r.date := by
  intro l
  induction l with
  | nil => intro st h; exact h
  | cons x xs ih =>
    intro st h
    rw [List.foldl_cons]
    apply ih
    intro r hr
    rcases processRow_mem fb sk dk dyk ck gk st x r hr with hmem | hprop
    · exact h r hmem
    · exact hprop

/-- Claim C4 counterexample: on a table whose header resolves none of
the required columns, the worker reports SUCCESS with an empty Dataset
rather than failing with a missing-required-column error. -/
theorem missingColumn_no_error :
    workerParse fbNone badTbl = Except.ok emptyPD := by
  have h : processRawData fbNone badTbl = emptyPD := by decide
  simp [workerParse, h]

/-- Claim C4 as amended: when the station, date, duration or charge
column cannot be resolved, every data row is skipped, the ingestion
succeeds with an empty Dataset (no error is raised and no partial data
is kept), and the caller then reports the single descriptive error for
zero valid records. -/
theorem missingColumn_empty_dataset (fb : String → Option JSDate)
    (r0 : Row) (rest : List Row)
    (hmiss : findColumnKey r0 stationCands = none ∨ findColumnKey r0 dateCands = none ∨
      findColumnKey r0 daysCands = none ∨ findColumnKey r0 chargeCands = none) :
    processRawData fb (r0 :: rest) = emptyPD ∧
    handleFileUpload (workerParse fb (r0 :: rest)) =
      .error ("No valid records found in the uploaded file.") := by
  have h1 : processRawData fb (r0 :: rest) = emptyPD := by
    dsimp only [processRawData]
    rw [foldl_processRow_missing fb (findColumnKey r0 groupCands) hmiss]
    rfl
  exact ⟨h1, by simp [handleFileUpload, workerParse, h1, emptyPD]⟩

/-- Witness for the amended C4 on a concrete header. -/
theorem missingColumn_empty_dataset_witness :
    processRawData fbNone badTbl = emptyPD ∧
    handleFileUpload (workerParse fbNone badTbl) =
      .error ("No valid records found in the uploaded file.") :=
  missingColumn_empty_dataset fbNone [("foo", Cell.str ("x"))] [] (Or.inl (by decide))

/-- Claim C5 counterexample: in a table whose first raw row is rejected
and whose first accepted record has calendar year 2024, the produced
Dataset carries year 0, not the year of the first accepted record. -/
theorem year_not_first_accepted :
    (processRawData fbNone yearTbl).year = 0 ∧
    (processRawData fbNone yearTbl).records.map (fun r => r.year) = [2024] := by
  exact ⟨by decide, by decide⟩

/-- Claim C5 as amended: the Dataset year equals the calendar year of
the FIRST RAW row when that row is accepted, and stays 0 whenever the
first raw row is rejected, even if later rows are accepted. -/
theorem year_from_first_raw_row (fb : String → Option JSDate) (data : List Row) :
    (processRawData fb data).year =
      match data with
      | [] => 0
      | r0 :: _ =>
        match rowAccepted fb (findColumnKey r0 stationCands) (findColumnKey r0 dateCands)
            (findColumnKey r0 daysCands) (findColumnKey r0 chargeCands) r0 with
        | some d => d.year
        | none => 0 := by
  cases data with
  | nil => rfl
  | cons r0 rest =>
    dsimp only [processRawData]
    have he : (r0 :: rest).enum = (0, r0) :: rest.enumFrom 1 := rfl
    rw [he, List.foldl_cons,
      foldl_enumFrom_snd fb _ _ _ _ _ rest 1 _ Nat.one_ne_zero,
      processRow_zero_year]

/-- Witness for the amended C5: a table whose first raw row is accepted
in 2024 yields Dataset year 2024. -/
theorem year_from_first_raw_row_witness :
    (processRawData fbNone gtbl).year = 2024 := by
  rw [year_from_first_raw_row]; decide

/-- Claim C6: every record produced by ingestion has a non-empty
station, a date obtained from a successful parse, and strictly positive
days; and `totalRecords` is exactly the length of the record sequence. -/
theorem ingestion_row_invariants (fb : String → Option JSDate) (data : List Row) :
    (∀ r ∈ (processRawData fb data).records,
        r.station ≠ "" ∧ 0 < r.days ∧ ∃ c, parseDate fb c = some r.date) ∧
    (processRawData fb data).totalRecords = (processRawData fb data).records.length := by
  cases data with
  | nil => exact ⟨fun r hr => absurd hr (List.not_mem_nil r), rfl⟩
  | cons r0 rest =>
    refine ⟨?_, rfl⟩
    intro r hr
    dsimp only [processRawData] at hr
    exact records_invariant_fold fb _ _ _ _ _ ((r0 :: rest).enum) ([], 0)
      (fun r hr' => absurd hr' (List.not_mem_nil r)) r hr

/-- Witness for C6 on the concrete accepted record of `gtbl`. -/
theorem ingestion_row_invariants_witness :
    sampleRec.station ≠ "" ∧ 0 < sampleRec.days ∧
      ∃ c, parseDate fbNone c = some sampleRec.date :=
  (ingestion_row_invariants fbNone gtbl).1 sampleRec (by decide)

/-! Section: Lemmas for claim C2 -/

lemma accum_apply (tsk : Option String) (tgk : Option (List String)) (dr : DateRange)
    (ms : Fin 12 → MetricSet) (r : RentalRecord) (i : Fin 12) :
    accum tsk tgk dr ms r i = if hitB tsk tgk dr i r then addRecord (ms i) r else ms i := by
  unfold accum hitB
  by_cases h1 : stationRejects tsk r.stationKey = true
  · simp [h1]
  · by_cases h2 : groupRejects tgk r.groupKey = true
    · simp [h1, h2]
    · by_cases h3 : rangeRejects dr r.day = true
      · simp [h1, h2, h3]
      · by_cases h4 : i = r.date.month0
        · subst h4; simp [h1, h2, h3]
        · have h4m : ¬(r.date.month0 = i) := fun h => h4 h.symm
          simp [h1, h2, h3, h4, h4m]

lemma foldl_accum_apply (tsk : Option String) (tgk : Option (List String)) (dr : DateRange) :
    ∀ (l : List RentalRecord) (ms : Fin 12 → MetricSet) (i : Fin 12),
      l.foldl (accum tsk tgk dr) ms i =
        { revenue := (ms i).revenue + ((l.filter (hitB tsk tgk dr i)).map (fun r => r.charge)).sum,
          days := (ms i).days + ((l.filter (hitB tsk tgk dr i)).map (fun r => r.days)).sum,
          count := (ms i).count + (l.filter (hitB tsk tgk dr i)).length,
          rate := (ms i).rate,
          hasData := (ms i).hasData || !(l.filter (hitB tsk tgk dr i)).isEmpty } := by
  intro l
  induction l with
  | nil => intro ms i; simp
  | cons r rs ih =>
    intro ms i
    rw [List.foldl_cons, ih (accum tsk tgk dr ms r) i, accum_apply]
    by_cases h : hitB tsk tgk dr i r = true
    · rw [if_pos h, List.filter_cons_of_pos h]
      simp only [addRecord, List.map_cons, List.sum_cons, List.length_cons,
        List.isEmpty_cons, MetricSet.mk.injEq, Bool.true_or, Bool.or_true,
        Bool.not_false, and_true, true_and]
      refine ⟨by ring, by ring, by omega⟩
    · rw [if_neg h, List.filter_cons_of_neg (by simpa using h)]

lemma station_filter_ok (selStation k : String)
    (hst : selStation = "All" ∨ normKey selStation ≠ "") :
    (!stationRejects (mkStationTarget selStation) k) =
      (decide (selStation = "All") || decide (k = normKey selStation)) := by
  unfold stationRejects mkStationTarget
  by_cases hA : selStation = "All"
  · simp [hA]
  · rcases hst with h | h
    · exact absurd h hA
    · by_cases hk : k = normKey selStation <;> simp [hA, h, hk]

lemma group_filter_ok (selGroups : List String) (k : String) :
    (!groupRejects (mkGroupTarget selGroups) k) =
      (decide ("All" ∈ selGroups) || decide (k ∈ selGroups.map normKey)) := by
  unfold groupRejects mkGroupTarget
  by_cases hA : "All" ∈ selGroups
  · simp [hA]
  · by_cases hk : k ∈ selGroups.map normKey <;> simp [hA, hk]

lemma range_filter_ok (dr : DateRange) (day : Int) :
    (!rangeRejects dr day) =
      (match dr with
       | .all => true
       | .r1to10 => decide (1 ≤ day ∧ day ≤ 10)
       | .r11to20 => decide (11 ≤ day ∧ day ≤ 20)
       | .r21End => decide (21 ≤ day)) := by
  cases dr with
  | all => rfl
  | r1to10 =>
    by_cases h : day < 1 ∨ day > 10
    · simp only [rangeRejects, if_pos h, Bool.not_true]
      symm; simp; omega
    · simp only [rangeRejects, if_neg h, Bool.not_false]
      symm; simp; omega
  | r11to20 =>
    by_cases h : day < 11 ∨ day > 20
    · simp only [rangeRejects, if_pos h, Bool.not_true]
      symm; simp; omega
    · simp only [rangeRejects, if_neg h, Bool.not_false]
      symm; simp; omega
  | r21End =>
    by_cases h : day < 21
    · simp only [rangeRejects, if_pos h, Bool.not_true]
      symm; simp; omega
    · simp only [rangeRejects, if_neg h, Bool.not_false]
      symm; simp; omega

lemma hitB_eq_specMatches (selStation : String) (selGroups : List String) (dr : DateRange)
    (hst : selStation = "All" ∨ normKey selStation ≠ "") (i : Fin 12) (r : RentalRecord) :
    hitB (mkStationTarget selStation) (mkGroupTarget selGroups) dr i r =
      (specMatches selStation selGroups dr r && decide (r.date.month0 = i)) := by
  unfold hitB specMatches
  rw [station_filter_ok selStation r.stationKey hst, group_filter_ok, range_filter_ok]

/-- Claim C2: for every Dataset and every filter selection whose station
choice is All or a station with a non-blank normalised key (every real
station satisfies this by the C6 invariant), `processYear` produces
exactly twelve per-month metric sets, and month slot `i` equals the
specification aggregate: the sum of charge, the sum of days, the count
and the non-emptiness flag of the records that pass the station, group
and day-of-month-range filters and fall in calendar month `i`, with
rate equal to revenue over days when days are positive and 0 otherwise. -/
theorem processYear_eq_spec (selStation : String) (selGroups : List String)
    (dr : DateRange) (d : ProcessedData)
    (hst : selStation = "All" ∨ normKey selStation ≠ "") (i : Fin 12) :
    processYear selStation selGroups dr (some d) i =
      processYearSpec selStation selGroups dr d i := by
  have hp : processYear selStation selGroups dr (some d) i =
      applyRates
        (d.records.foldl (accum (mkStationTarget selStation) (mkGroupTarget selGroups) dr)
          (fun _ => initMetric)) i := rfl
  have hfilter :
      d.records.filter (hitB (mkStationTarget selStation) (mkGroupTarget selGroups) dr i) =
        d.records.filter
          (fun r => specMatches selStation selGroups dr r && decide (r.date.month0 = i)) := by
    apply List.filter_congr
    intro r _
    rw [hitB_eq_specMatches selStation selGroups dr hst]
  have hms : d.records.foldl (accum (mkStationTarget selStation) (mkGroupTarget selGroups) dr)
      (fun _ => initMetric) i =
      { revenue := ((d.records.filter
            (fun r => specMatches selStation selGroups dr r && decide (r.date.month0 = i))).map
              (fun r => r.charge)).sum,
        days := ((d.records.filter
            (fun r => specMatches selStation selGroups dr r && decide (r.date.month0 = i))).map
              (fun r => r.days)).sum,
        count := (d.records.filter
            (fun r => specMatches selStation selGroups dr r && decide (r.date.month0 = i))).length,
        rate := 0,
        hasData := !(d.records.filter
            (fun r => specMatches selStation selGroups dr r && decide (r.date.month0 = i))).isEmpty } := by
    rw [foldl_accum_apply, hfilter]
    simp [initMetric]
  rw [hp]
  unfold applyRates
  rw [hms]
  unfold processYearSpec monthRecords
  dsimp only
  by_cases hd :
      (0 : ℚ) <
        ((d.records.filter
            (fun r => specMatches selStation selGroups dr r && decide (r.date.month0 = i))).map
          (fun r => r.days)).sum
  · simp [hd]
  · simp [hd]

/-- Witness for C2: the All-groups, single-station filter on a concrete
two-record dataset, with the specification side evaluated. -/
theorem processYear_eq_spec_witness :
    processYear ("Athens") ["All"] .all (some samplePD) (0 : Fin 12) =
      processYearSpec ("Athens") ["All"] .all samplePD (0 : Fin 12) ∧
    processYearSpec ("Athens") ["All"] .all samplePD (0 : Fin 12) =
      ⟨100, 2, 1, 50, true⟩ :=
  ⟨processYear_eq_spec ("Athens") ["All"] .all samplePD (Or.inr (by decide)) 0, by decide⟩

/-! Section: Registry lemmas shared by C3 and C8 -/

lemma loadYearCall_cached {s : RegState} {y : Int} {d : ProcessedData}
    (h : s.registry y = some d) : loadYearCall s y = (s, .cachedHit d) := by
  unfold loadYearCall; rw [h]

lemma loadYearCall_joined {s : RegState} {y : Int} {op : Nat}
    (h1 : s.registry y = none) (h2 : s.inflight y = some op) :
    loadYearCall s y = (s, .joined op) := by
  unfold loadYearCall; rw [h1, h2]

lemma regInv_init : RegInv regInit := by
  intro y; simp [regInit]

lemma regStep_inv {s s2 : RegState} (h : RegInv s) (hs : RegStep s s2) : RegInv s2 := by
  cases hs with
  | call y =>
    cases hr : s.registry y with
    | some d => rw [loadYearCall_cached hr]; exact h
    | none =>
      cases hi : s.inflight y with
      | some op => rw [loadYearCall_joined hr hi]; exact h
      | none =>
        unfold loadYearCall
        rw [hr, hi]
        intro z
        dsimp only
        by_cases hz : z = y
        · subst hz
          have hp := (h z).1
          rw [hi] at hp
          simp only [Option.isSome_none, Bool.false_eq_true, if_false] at hp
          constructor
          · simp [hp]
          · intro hsome; rw [hr] at hsome; simp at hsome
        · simp only [hz, if_false]
          exact h z
  | complete y res hin =>
    intro z
    unfold fetchComplete
    dsimp only
    by_cases hz : z = y
    · subst hz
      constructor
      · have hp := (h z).1
        simp only [hin, if_true] at hp
        simp [hp]
      · intro _; simp
    · simp only [hz, if_false]
      exact h z

lemma reachable_inv {s : RegState} (h : RegReachable s) : RegInv s := by
  unfold RegReachable at h
  induction h with
  | refl => exact regInv_init
  | tail hab hbc ih => exact regStep_inv ih hbc

lemma step_cached_preserved {s s2 : RegState} {y : Int} {d : ProcessedData}
    (hinv : RegInv s) (hreg : s.registry y = some d) (hs : RegStep s s2) :
    s2.registry y = some d ∧ s2.fetchesStarted y = s.fetchesStarted y := by
  cases hs with
  | call y2 =>
    cases hr : s.registry y2 with
    | some d2 => rw [loadYearCall_cached hr]; exact ⟨hreg, rfl⟩
    | none =>
      cases hi : s.inflight y2 with
      | some op => rw [loadYearCall_joined hr hi]; exact ⟨hreg, rfl⟩
      | none =>
        unfold loadYearCall
        rw [hr, hi]
        dsimp only
        refine ⟨hreg, ?_⟩
        by_cases hy : y = y2
        · subst hy; rw [hreg] at hr; cases hr
        · simp [hy]
  | complete y2 res hin2 =>
    by_cases hy : y2 = y
    · subst hy
      have hnone := (hinv y2).2 (by rw [hreg]; rfl)
      rw [hnone] at hin2
      simp at hin2
    · unfold fetchComplete
      dsimp only
      have hy2 : ¬(y = y2) := fun h => hy h.symm
      exact ⟨by simp [hy2, hreg], rfl⟩

lemma regS1_reachable : RegReachable regS1 :=
  Relation.ReflTransGen.single (RegStep.call regInit 2024)

lemma regS2_reachable : RegReachable regS2 :=
  regS1_reachable.tail (RegStep.complete regS1 2024 (some emptyPD) (by decide))

/-- Claim C3: at most one outstanding remote fetch per year at any
time.  A `loadYear` call on a cached year returns immediately with no
state change and no new fetch; a call while a fetch is in flight
returns the same pending operation (so every such caller observes the
single resolution of that one operation); in every reachable state at
most one fetch per year is outstanding; and once a year is cached, its
entry persists and no later step ever starts another fetch for it. -/
theorem loadYear_dedup (s : RegState) (y : Int) (d : ProcessedData) (op : Nat) :
    (s.registry y = some d → loadYearCall s y = (s, .cachedHit d)) ∧
    (s.registry y = none → s.inflight y = some op → loadYearCall s y = (s, .joined op)) ∧
    (RegReachable s → s.pending y ≤ 1) ∧
    (RegReachable s → s.registry y = some d →
      ∀ s2, Relation.ReflTransGen RegStep s s2 →
        s2.registry y = some d ∧ s2.fetchesStarted y = s.fetchesStarted y) := by
  refine ⟨fun h => loadYearCall_cached h, fun h1 h2 => loadYearCall_joined h1 h2, ?_, ?_⟩
  · intro hr
    have hp := (reachable_inv hr y).1
    rw [hp]
    split
    · exact le_refl 1
    · exact Nat.zero_le 1
  · intro hr hreg s2 hsteps
    induction hsteps with
    | refl => exact ⟨hreg, rfl⟩
    | tail hab hbc ih =>
      have hs := step_cached_preserved (reachable_inv (hr.trans hab)) ih.1 hbc
      exact ⟨hs.1, hs.2.trans ih.2⟩

/-- Witness for C3 along the concrete run: call, resolve, call again. -/
theorem loadYear_dedup_witness :
    loadYearCall regS2 2024 = (regS2, LoadOutcome.cachedHit emptyPD) ∧
    loadYearCall regS1 2024 = (regS1, LoadOutcome.joined 0) ∧
    regS1.pending 2024 ≤ 1 ∧
    regS2.registry 2024 = some emptyPD :=
  ⟨(loadYear_dedup regS2 2024 emptyPD 0).1 (by decide),
   (loadYear_dedup regS1 2024 emptyPD 0).2.1 (by decide) (by decide),
   (loadYear_dedup regS1 2024 emptyPD 0).2.2.1 regS1_reachable,
   ((loadYear_dedup regS2 2024 emptyPD 0).2.2.2 regS2_reachable (by decide) regS2
      Relation.ReflTransGen.refl).1⟩

/-- Claim C8: a failed load writes nothing to the registry (the whole
registry function is unchanged), the in-flight marker of the year is
cleared whether the load succeeded or failed, a subsequent `loadYear`
for the same year starts a fresh fetch, and every other year is
untouched. -/
theorem loadYear_failure_safe (s : RegState) (y : Int) (res : Option ProcessedData)
    (_hin : (s.inflight y).isSome) :
    (fetchComplete s y none).registry = s.registry ∧
    (fetchComplete s y res).inflight y = none ∧
    (s.registry y = none →
      (loadYearCall (fetchComplete s y none) y).2 = .started s.nextOp ∧
      (loadYearCall (fetchComplete s y none) y).1.fetchesStarted y
        = s.fetchesStarted y + 1) ∧
    (∀ y2, y2 ≠ y → (fetchComplete s y none).registry y2 = s.registry y2 ∧
      (fetchComplete s y none).inflight y2 = s.inflight y2) := by
  refine ⟨?_, by simp [fetchComplete], ?_, ?_⟩
  · funext z
    unfold fetchComplete
    dsimp only
    by_cases hz : z = y <;> simp [hz]
  · intro hreg
    have h1 : (fetchComplete s y none).registry y = none := by
      unfold fetchComplete; simp [hreg]
    have h2 : (fetchComplete s y none).inflight y = none := by
      unfold fetchComplete; simp
    constructor
    · unfold loadYearCall
      rw [h1, h2]
      rfl
    · unfold loadYearCall
      rw [h1, h2]
      dsimp only
      simp [fetchComplete]
  · intro y2 hy
    unfold fetchComplete
    dsimp only
    simp [hy]

/-- Witness for C8 on the concrete failed run. -/
theorem loadYear_failure_safe_witness :
    (fetchComplete regS1 2024 none).registry = regS1.registry ∧
    (fetchComplete regS1 2024 none).inflight 2024 = none ∧
    (loadYearCall (fetchComplete regS1 2024 none) 2024).2
      = LoadOutcome.started regS1.nextOp :=
  ⟨(loadYear_failure_safe regS1 2024 none (by decide)).1,
   (loadYear_failure_safe regS1 2024 none (by decide)).2.1,
   ((loadYear_failure_safe regS1 2024 none (by decide)).2.2.1 (by decide)).1⟩

end RPD
